import Mathlib

/-!
Shallow embedding of the OLAP star-schema analyzer (ArrowOLAPAnalyzer /
DuckDBOLAPAnalyzer).  Arrow scalars carry a validity flag, modelled here as
`Option`; `none` is an invalid (null) scalar.  C++ `double` measures are
modelled as exact rationals (`ℚ`); the `std::map` containers are modelled as
association lists with in-place update, with the ascending-key iteration
order of `std::map` realised by an explicit sort at output time.
-/

namespace TryParquet

/-! ### Generic association-map operations (model of std::map / std::unordered_map) -/

/-- Model of `m[k] = f(m[k])` on a C++ map: update the entry for `k` in place,
or append a fresh entry when `k` is absent. -/
def mapUpdate {α β : Type} [DecidableEq α] (k : α) (f : Option β → β) :
    List (α × β) → List (α × β)
  | [] => [(k, f none)]
  | (k', v) :: rest =>
    if k = k' then (k, f (some v)) :: rest
    else (k', v) :: mapUpdate k f rest

/-- Model of `m.find(k)` on a C++ map. -/
def mapLookup {α β : Type} [DecidableEq α] (k : α) : List (α × β) → Option β
  | [] => none
  | (k', v) :: rest => if k = k' then some v else mapLookup k rest

theorem mapLookup_mapUpdate {α β : Type} [DecidableEq α] (k k' : α)
    (f : Option β → β) (m : List (α × β)) :
    mapLookup k' (mapUpdate k f m) =
      if k' = k then some (f (mapLookup k m)) else mapLookup k' m := by
  induction m with
  | nil =>
    by_cases h : k' = k <;> simp [mapUpdate, mapLookup, h]
  | cons p rest ih =>
    obtain ⟨k'', v⟩ := p
    by_cases h1 : k = k''
    · subst h1
      by_cases h2 : k' = k <;> simp [mapUpdate, mapLookup, h2]
    · by_cases h2 : k' = k''
      · subst h2
        have hkk : ¬ k' = k := fun h => h1 h.symm
        simp [mapUpdate, mapLookup, h1, hkk, ih]
      · simp [mapUpdate, mapLookup, h1, h2, ih]

/-! ### Dimension lookup construction

Embedding of the lookup-building loops in `AnalyzeCustomerSegments`
(arrow_analyzer.cpp:384-397, `cust_to_type`) and `MultidimensionalAnalysis`
(arrow_analyzer.cpp:490-518, `geo_to_region` / `prod_to_category`).  Each
dimension row contributes an entry `map[key] = attr` exactly when both the
key scalar and the attribute scalar are valid (`is_valid`). -/

/-- A row of a dimension table restricted to the two columns the loops read:
an integer surrogate key and one string attribute, each possibly null. -/
structure DimRow where
  key : Option Int
  attr : Option String
deriving DecidableEq, Repr

/-- One iteration of the lookup-building loop: the row is indexed iff both
scalars are valid; `std::unordered_map::operator[]` assignment overwrites. -/
def lookupStep (m : Int → Option String) (r : DimRow) : Int → Option String :=
  match r.key, r.attr with
  | some k, some v => fun x => if x = k then some v else m x
  | _, _ => m

/-- The built dimension lookup (e.g. `cust_to_type`), as a partial map from
surrogate key to attribute. -/
def buildLookup (rows : List DimRow) : Int → Option String :=
  rows.foldl lookupStep (fun _ => none)

/-- The attribute row `r` contributes for key `k`, if any: its own attribute
when `r` is a valid binding of `k`. -/
def matchRow (r : DimRow) (k : Int) : Option String :=
  match r.key, r.attr with
  | some k', some v => if k = k' then some v else none
  | _, _ => none

/-- Specification-side reading of the lookup ("last-write-wins", spec §3 and
§9): the attribute of the last row in scan order that validly binds `k`.
Rows later in the list take precedence. -/
def lastWins : List DimRow → Int → Option String
  | [], _ => none
  | r :: rs, k =>
    match lastWins rs k with
    | some v => some v
    | none => matchRow r k

theorem foldl_lookupStep (rows : List DimRow) (m : Int → Option String) (k : Int) :
    List.foldl lookupStep m rows k =
      match lastWins rows k with
      | some v => some v
      | none => m k := by
  induction rows generalizing m with
  | nil => simp [lastWins]
  | cons r rs ih =>
    simp only [List.foldl_cons, lastWins]
    rw [ih]
    cases h1 : lastWins rs k with
    | some v => simp
    | none =>
      simp only
      cases hk : r.key with
      | none => simp [lookupStep, matchRow, hk]
      | some k' =>
        cases ha : r.attr with
        | none => simp [lookupStep, matchRow, hk, ha]
        | some v =>
          by_cases hkk : k = k' <;> simp [lookupStep, matchRow, hk, ha, hkk]

/-- Claim C6 (confirmed): duplicate dimension keys resolve last-write-wins.
For every dimension dataset and key, the built lookup returns exactly the
attribute of the last row in scan order that validly binds that key
(`lastWins`); in particular, when two or more rows carry the same valid key,
the key maps to the single attribute of the last such row.  The construction
is total — it produces no warning and no error value. -/
theorem buildLookup_last_write_wins (rows : List DimRow) (k : Int) :
    buildLookup rows k = lastWins rows k := by
  unfold buildLookup
  rw [foldl_lookupStep]
  cases h : lastWins rows k <;> simp

/-- Claim C4 counterexample: a dimension row whose key is valid but whose
attribute (value) scalar is null is NOT kept with an "unknown" sentinel —
the loop requires `cust_val->is_valid && type_val->is_valid`, so the row is
skipped entirely and its key stays unindexed. -/
theorem buildLookup_null_attr_drops_row :
    buildLookup [⟨some 5, none⟩] 5 = none ∧
      (buildLookup [⟨some 5, none⟩] 5).isSome = false := by
  constructor <;> rfl

/-- Claim C4 (amended): a dimension row is indexed iff both the key and the
value (attribute) validity bits are true; a row whose attribute is null is
skipped (unindexed) exactly like a row whose key is null, leaving the built
lookup unchanged.  No "unknown" sentinel exists in the code. -/
theorem buildLookup_skips_invalid_rows (rows : List DimRow) (r : DimRow)
    (h : r.key = none ∨ r.attr = none) (k : Int) :
    buildLookup (rows ++ [r]) k = buildLookup rows k := by
  unfold buildLookup
  rw [List.foldl_append]
  rcases h with h | h
  · simp [lookupStep, h]
  · cases hk : r.key <;> simp [lookupStep, h, hk]

/-- Witness for the amended C4 theorem at a concrete input. -/
theorem buildLookup_skips_invalid_rows_witness :
    ((⟨some 5, none⟩ : DimRow).key = none ∨ (⟨some 5, none⟩ : DimRow).attr = none) ∧
      buildLookup ([⟨some 4, some "East"⟩] ++ [⟨some 5, none⟩]) 4 =
        buildLookup [⟨some 4, some "East"⟩] 4 :=
  ⟨Or.inr rfl, buildLookup_skips_invalid_rows [⟨some 4, some "East"⟩] ⟨some 5, none⟩ (Or.inr rfl) 4⟩

/-! ### Customer-segment aggregation

Embedding of the aggregation loop of `AnalyzeCustomerSegments`
(arrow_analyzer.cpp:399-452).  The loop keeps four `std::map`s keyed by
customer type (`type_sales`, `type_profit`, `unique_customers`,
`order_counts`); all four are updated together under one admission test, so
they are mirrored here as a single map to a four-field accumulator record. -/

/-- A fact row restricted to the columns the loop reads: `customer_key`,
`gross_sales` and `profit`, each possibly null. -/
structure FactRowC where
  cust : Option Int
  sales : Option ℚ
  profit : Option ℚ
deriving DecidableEq, Repr

/-- The per-type accumulators: the `type_sales` and `type_profit` vectors
(push_back order), the `unique_customers` set and the `order_counts` counter. -/
structure GroupAcc where
  salesVals : List ℚ
  profitVals : List ℚ
  uniqueCusts : List Int
  orders : Nat
deriving DecidableEq, Repr

/-- Model of `std::set<int>::insert`: add the element unless present (only
the resulting cardinality is observed by the code). -/
def insertSet (c : Int) (s : List Int) : List Int :=
  if c ∈ s then s else s ++ [c]

/-- Accumulator state created by the first contributing row of a type. -/
def accInit (c : Int) (s p : ℚ) : GroupAcc := ⟨[s], [p], [c], 1⟩

/-- Accumulator update for a subsequent contributing row. -/
def accPush (a : GroupAcc) (c : Int) (s p : ℚ) : GroupAcc :=
  ⟨a.salesVals ++ [s], a.profitVals ++ [p], insertSet c a.uniqueCusts, a.orders + 1⟩

/-- The admission test of the loop body (arrow_analyzer.cpp:404-423): the row
contributes iff the `customer_key`, `gross_sales` and `profit` scalars are
all valid and the key is found in `cust_to_type`; on success it yields the
resolved type together with the row values folded into the accumulators. -/
def custContrib (lk : Int → Option String) (r : FactRowC) :
    Option (String × Int × ℚ × ℚ) :=
  match r.cust, r.sales, r.profit with
  | some c, some s, some p =>
    match lk c with
    | some t => some (t, c, s, p)
    | none => none
  | _, _, _ => none

/-- One iteration of the aggregation loop. -/
def custStep (lk : Int → Option String) (m : List (String × GroupAcc))
    (r : FactRowC) : List (String × GroupAcc) :=
  match custContrib lk r with
  | none => m
  | some (t, c, s, p) =>
    mapUpdate t (fun a =>
      match a with
      | none => accInit c s p
      | some a => accPush a c s p) m

/-- The full aggregation pass over the fact rows. -/
def custSegAggregate (lk : Int → Option String) (rows : List FactRowC) :
    List (String × GroupAcc) :=
  rows.foldl (custStep lk) []

theorem custStep_skip (lk : Int → Option String) (m : List (String × GroupAcc))
    (r : FactRowC) (h : custContrib lk r = none) : custStep lk m r = m := by
  unfold custStep
  rw [h]

theorem custSeg_orders_pos_aux (lk : Int → Option String) (rows : List FactRowC)
    (m : List (String × GroupAcc))
    (hm : ∀ t a, mapLookup t m = some a → 1 ≤ a.orders) :
    ∀ t a, mapLookup t (rows.foldl (custStep lk) m) = some a → 1 ≤ a.orders := by
  induction rows generalizing m with
  | nil => exact hm
  | cons r rs ih =>
    intro t a h
    rw [List.foldl_cons] at h
    refine ih _ ?_ t a h
    intro t' a' h'
    unfold custStep at h'
    cases hc : custContrib lk r with
    | none =>
      rw [hc] at h'
      exact hm t' a' h'
    | some q =>
      obtain ⟨tt, c, s, p⟩ := q
      rw [hc, mapLookup_mapUpdate] at h'
      by_cases ht : t' = tt
      · rw [if_pos ht] at h'
        cases hl : mapLookup tt m with
        | none =>
          rw [hl] at h'
          injection h' with h''
          rw [← h'']
          simp [accInit]
        | some a0 =>
          rw [hl] at h'
          injection h' with h''
          rw [← h'']
          simp [accPush]
      · rw [if_neg ht] at h'
        exact hm t' a' h'

/-- Claim C10 (confirmed): a fact row whose `gross_sales` or `profit` scalar
is null is excluded from the customer-segment aggregation entirely — removing
it from the fact table leaves the whole aggregation state (sales vector,
profit vector, unique-customer set and order count of every group) unchanged
— and every group present in the result has an order count of at least 1, so
every per-group average divides by a count of at least 1. -/
theorem custSeg_null_measure_row_excluded (lk : Int → Option String) :
    (∀ (pre post : List FactRowC) (r : FactRowC), r.sales = none ∨ r.profit = none →
        custSegAggregate lk (pre ++ r :: post) = custSegAggregate lk (pre ++ post)) ∧
    (∀ (rows : List FactRowC) (t : String) (a : GroupAcc),
        mapLookup t (custSegAggregate lk rows) = some a → 1 ≤ a.orders) := by
  constructor
  · intro pre post r h
    unfold custSegAggregate
    rw [List.foldl_append, List.foldl_append, List.foldl_cons]
    congr 1
    apply custStep_skip
    rcases h with h | h <;>
      cases hc : r.cust <;> cases hs : r.sales <;> cases hp : r.profit <;>
        simp_all [custContrib]
  · intro rows
    exact custSeg_orders_pos_aux lk rows []
      (by intro t a h; simp [mapLookup] at h)

/-- Witness for the C10 theorem at a concrete input: dropping a row whose
`gross_sales` is null does not change the aggregation. -/
theorem custSeg_null_measure_row_excluded_witness :
    custSegAggregate (buildLookup [⟨some 1, some "Consumer"⟩])
        ([⟨some 1, some 10, some 2⟩] ++ (⟨some 1, none, some 3⟩ : FactRowC) :: []) =
      custSegAggregate (buildLookup [⟨some 1, some "Consumer"⟩])
        ([⟨some 1, some 10, some 2⟩] ++ []) :=
  (custSeg_null_measure_row_excluded _).1 [⟨some 1, some 10, some 2⟩] []
    ⟨some 1, none, some 3⟩ (Or.inl rfl)

/-! ### Average computation (`AnalyzeSalesByTime`, arrow_analyzer.cpp:179-193) -/

/-- Double-precision division as observed by the analyzer: a zero divisor
yields no finite well-defined quotient (`none` stands for the NaN/Inf the
C++ division produces); any other divisor yields the exact quotient. -/
def ddiv (a b : ℚ) : Option ℚ := if b = 0 then none else some (a / b)

/-- `arrow::compute::Count` with default options: the number of valid
(non-null) entries of the column (`record_count`). -/
def recordCount (col : List (Option ℚ)) : Nat := (col.filterMap id).length

/-- `arrow::compute::Sum` with nulls skipped: the sum of the valid entries.
(For a column with no valid entry the C++ reads `.value` of a null result
scalar; the value read is irrelevant to the division-by-zero question.) -/
def sumValid (col : List (Option ℚ)) : ℚ := (col.filterMap id).sum

/-- The "Average Sale" printed by the time analysis (arrow_analyzer.cpp:192):
`sum_sales->value / record_count->value`, computed unconditionally — the code
has no zero-count guard and no "no data" branch. -/
def overallAverageSale (col : List (Option ℚ)) : Option ℚ :=
  ddiv (sumValid col) (recordCount col)

/-- Claim C3 counterexample: on a fact table with zero counted rows the time
analysis performs the division anyway — the count is 0 and the emitted
"Average Sale" is the undefined quotient (NaN, modelled `none`), not a
defined "no data" marker; no such marker exists in the code. -/
theorem overallAverageSale_divides_by_zero_count :
    recordCount ([] : List (Option ℚ)) = 0 ∧
      overallAverageSale ([] : List (Option ℚ)) = none := by
  constructor
  · rfl
  · simp [overallAverageSale, ddiv, recordCount]

/-- Claim C3 (amended): the per-group averages of the customer-segment
analysis are divide-by-zero safe — every group present in the aggregation has
an order count of at least 1, so `total_sales/count` and `total_profit/count`
are defined quotients — whereas the overall "Average Sale" of the time
analysis is computed with no guard and is undefined (NaN) when the count of
valid rows is zero. -/
theorem custSeg_average_divides_by_positive_count (lk : Int → Option String)
    (rows : List FactRowC) (t : String) (a : GroupAcc)
    (h : mapLookup t (custSegAggregate lk rows) = some a) :
    0 < a.orders ∧ (ddiv a.salesVals.sum a.orders).isSome ∧
      (ddiv a.profitVals.sum a.orders).isSome := by
  have hpos : 1 ≤ a.orders :=
    custSeg_orders_pos_aux lk rows [] (by intro t' a' h'; simp [mapLookup] at h') t a h
  have hne : ((a.orders : ℚ)) ≠ 0 := by
    have : a.orders ≠ 0 := Nat.one_le_iff_ne_zero.mp hpos
    exact_mod_cast this
  refine ⟨hpos, ?_, ?_⟩ <;> simp [ddiv, hne]

/-- Witness for the amended C3 theorem at a concrete input. -/
theorem custSeg_average_divides_by_positive_count_witness :
    0 < (⟨[8], [3], [2], 1⟩ : GroupAcc).orders ∧
      (ddiv (⟨[8], [3], [2], 1⟩ : GroupAcc).salesVals.sum
        (⟨[8], [3], [2], 1⟩ : GroupAcc).orders).isSome ∧
      (ddiv (⟨[8], [3], [2], 1⟩ : GroupAcc).profitVals.sum
        (⟨[8], [3], [2], 1⟩ : GroupAcc).orders).isSome :=
  custSeg_average_divides_by_positive_count
    (buildLookup [⟨some 2, some "Corporate"⟩]) [⟨some 2, some 8, some 3⟩]
    "Corporate" ⟨[8], [3], [2], 1⟩ (by decide)

/-! ### Multidimensional aggregation

Embedding of the region × category aggregation loop of
`MultidimensionalAnalysis` (arrow_analyzer.cpp:520-568): a fact row is
admitted iff its `geography_key`, `product_key` and `gross_sales` scalars
are all valid and both keys are found in the dimension lookups; the sales
value is then pushed onto `region_category_sales[(region, category)]`. -/

/-- A fact row restricted to the columns the loop reads. -/
structure FactRowM where
  geo : Option Int
  prod : Option Int
  sales : Option ℚ
deriving DecidableEq, Repr

/-- The admission test of the loop body (arrow_analyzer.cpp:523-541): on
success, the resolved (region, category) group key and the sales value. -/
def mdaContrib (geoLk prodLk : Int → Option String) (r : FactRowM) :
    Option ((String × String) × ℚ) :=
  match r.geo, r.prod, r.sales with
  | some g, some p, some s =>
    match geoLk g, prodLk p with
    | some region, some category => some ((region, category), s)
    | _, _ => none
  | _, _, _ => none

/-- One iteration of the aggregation loop:
`region_category_sales[key].push_back(sales)`. -/
def mdaStep (geoLk prodLk : Int → Option String)
    (m : List ((String × String) × List ℚ)) (r : FactRowM) :
    List ((String × String) × List ℚ) :=
  match mdaContrib geoLk prodLk r with
  | none => m
  | some (k, s) =>
    mapUpdate k (fun l =>
      match l with
      | none => [s]
      | some l => l ++ [s]) m

/-- The full aggregation pass over the fact rows. -/
def mdaAggregate (geoLk prodLk : Int → Option String) (rows : List FactRowM) :
    List ((String × String) × List ℚ) :=
  rows.foldl (mdaStep geoLk prodLk) []

/-- The group key a row resolves to, when every group rule succeeds: both
foreign keys non-null and both dimension lookups hit (spec §4.2's group_spec
evaluation, independent of the measure value). -/
def resolvedKey (geoLk prodLk : Int → Option String) (r : FactRowM) :
    Option (String × String) :=
  match r.geo, r.prod with
  | some g, some p =>
    match geoLk g, prodLk p with
    | some region, some category => some (region, category)
    | _, _ => none
  | _, _ => none

/-- The sales values of the contributing rows for one group key, in scan
order. -/
def contribSales (geoLk prodLk : Int → Option String) :
    List FactRowM → (String × String) → List ℚ
  | [], _ => []
  | r :: rs, k =>
    match mdaContrib geoLk prodLk r with
    | some (k', s) =>
      if k' = k then s :: contribSales geoLk prodLk rs k
      else contribSales geoLk prodLk rs k
    | none => contribSales geoLk prodLk rs k

/-- The sales values of all contributing rows, in scan order. -/
def allContribSales (geoLk prodLk : Int → Option String) :
    List FactRowM → List ℚ
  | [] => []
  | r :: rs =>
    match mdaContrib geoLk prodLk r with
    | some (_, s) => s :: allContribSales geoLk prodLk rs
    | none => allContribSales geoLk prodLk rs

theorem mda_fold_lookup (geoLk prodLk : Int → Option String) (rows : List FactRowM)
    (m : List ((String × String) × List ℚ)) (k : String × String) :
    mapLookup k (rows.foldl (mdaStep geoLk prodLk) m) =
      if contribSales geoLk prodLk rows k = [] then mapLookup k m
      else some ((mapLookup k m).getD [] ++ contribSales geoLk prodLk rows k) := by
  induction rows generalizing m with
  | nil => simp [contribSales]
  | cons r rs ih =>
    rw [List.foldl_cons, ih]
    cases hc : mdaContrib geoLk prodLk r with
    | none => simp only [mdaStep, hc, contribSales]
    | some q =>
      obtain ⟨k', s⟩ := q
      by_cases hk : k' = k
      · subst hk
        simp only [mdaStep, hc, contribSales, if_pos rfl]
        rw [mapLookup_mapUpdate]
        cases hm : mapLookup k' m <;>
          by_cases hrs : contribSales geoLk prodLk rs k' = [] <;>
            simp [hm, hrs, List.append_assoc]
      · have hk2 : ¬ k = k' := fun h => hk h.symm
        simp only [mdaStep, hc, contribSales, if_neg hk]
        rw [mapLookup_mapUpdate, if_neg hk2]

/-- `total_sales` of one emitted group: `std::accumulate` over its sales
vector (arrow_analyzer.cpp:554), i.e. the sum of the vector kept in the map
(`0` for a group key that was never created). -/
def mdaGroupTotal (geoLk prodLk : Int → Option String) (rows : List FactRowM)
    (k : String × String) : ℚ :=
  ((mapLookup k (mdaAggregate geoLk prodLk rows)).getD []).sum

/-- The sum of `total_sales` over all emitted groups. -/
def sumOverGroups (m : List ((String × String) × List ℚ)) : ℚ :=
  (m.map (fun e => e.2.sum)).sum

/-- The total number of fact rows folded into the groups (each group's sales
vector holds one entry per contributing row). -/
def countOverGroups (m : List ((String × String) × List ℚ)) : Nat :=
  (m.map (fun e => e.2.length)).sum

theorem sumOverGroups_mapUpdate (k : String × String) (s : ℚ)
    (m : List ((String × String) × List ℚ)) :
    sumOverGroups (mapUpdate k (fun l =>
      match l with
      | none => [s]
      | some l => l ++ [s]) m) = sumOverGroups m + s := by
  induction m with
  | nil => simp [mapUpdate, sumOverGroups]
  | cons p rest ih =>
    obtain ⟨k', v⟩ := p
    by_cases hk : k = k'
    · simp [mapUpdate, hk, sumOverGroups, List.sum_append]
      ring
    · simp only [mapUpdate, if_neg hk, sumOverGroups, List.map_cons, List.sum_cons]
      rw [show (List.map (fun e => e.2.sum) (mapUpdate k (fun l =>
        match l with
        | none => [s]
        | some l => l ++ [s]) rest)).sum = sumOverGroups (mapUpdate k (fun l =>
        match l with
        | none => [s]
        | some l => l ++ [s]) rest) from rfl, ih]
      unfold sumOverGroups
      ring

theorem countOverGroups_mapUpdate (k : String × String) (s : ℚ)
    (m : List ((String × String) × List ℚ)) :
    countOverGroups (mapUpdate k (fun l =>
      match l with
      | none => [s]
      | some l => l ++ [s]) m) = countOverGroups m + 1 := by
  induction m with
  | nil => simp [mapUpdate, countOverGroups]
  | cons p rest ih =>
    obtain ⟨k', v⟩ := p
    by_cases hk : k = k'
    · simp [mapUpdate, hk, countOverGroups]
      omega
    · simp only [mapUpdate, if_neg hk, countOverGroups, List.map_cons, List.sum_cons]
      rw [show (List.map (fun e => e.2.length) (mapUpdate k (fun l =>
        match l with
        | none => [s]
        | some l => l ++ [s]) rest)).sum = countOverGroups (mapUpdate k (fun l =>
        match l with
        | none => [s]
        | some l => l ++ [s]) rest) from rfl, ih]
      unfold countOverGroups
      omega

theorem sumOverGroups_fold (geoLk prodLk : Int → Option String)
    (rows : List FactRowM) (m : List ((String × String) × List ℚ)) :
    sumOverGroups (rows.foldl (mdaStep geoLk prodLk) m) =
      sumOverGroups m + (allContribSales geoLk prodLk rows).sum := by
  induction rows generalizing m with
  | nil => simp [allContribSales]
  | cons r rs ih =>
    rw [List.foldl_cons, ih]
    cases hc : mdaContrib geoLk prodLk r with
    | none => simp [mdaStep, hc, allContribSales]
    | some q =>
      obtain ⟨k, s⟩ := q
      simp only [mdaStep, hc, allContribSales, List.sum_cons]
      rw [sumOverGroups_mapUpdate]
      ring

theorem countOverGroups_fold (geoLk prodLk : Int → Option String)
    (rows : List FactRowM) (m : List ((String × String) × List ℚ)) :
    countOverGroups (rows.foldl (mdaStep geoLk prodLk) m) =
      countOverGroups m + (allContribSales geoLk prodLk rows).length := by
  induction rows generalizing m with
  | nil => simp [allContribSales]
  | cons r rs ih =>
    rw [List.foldl_cons, ih]
    cases hc : mdaContrib geoLk prodLk r with
    | none => simp [mdaStep, hc, allContribSales]
    | some q =>
      obtain ⟨k, s⟩ := q
      simp only [mdaStep, hc, allContribSales, List.length_cons]
      rw [countOverGroups_mapUpdate]
      omega

theorem mdaContrib_resolvedKey (geoLk prodLk : Int → Option String) (r : FactRowM) :
    mdaContrib geoLk prodLk r =
      match resolvedKey geoLk prodLk r, r.sales with
      | some k, some s => some (k, s)
      | _, _ => none := by
  cases hg : r.geo <;> cases hp : r.prod <;> cases hs : r.sales <;>
    simp only [mdaContrib, resolvedKey, hg, hp, hs]
  case some.some.none g p =>
    cases hgl : geoLk g <;> cases hpl : prodLk p <;> rfl
  case some.some.some g p s =>
    cases hgl : geoLk g <;> cases hpl : prodLk p <;> rfl

theorem contribSales_spec (geoLk prodLk : Int → Option String)
    (rows : List FactRowM) (k : String × String) :
    contribSales geoLk prodLk rows k =
      ((rows.filter (fun r => decide (resolvedKey geoLk prodLk r = some k))).filterMap
        FactRowM.sales) := by
  induction rows with
  | nil => simp [contribSales]
  | cons r rs ih =>
    simp only [contribSales, mdaContrib_resolvedKey, List.filter_cons]
    cases hr : resolvedKey geoLk prodLk r with
    | none => cases hs : r.sales <;> simp [ih]
    | some k' =>
      cases hs : r.sales with
      | none => by_cases hk : k' = k <;> simp [ih, hs, hk]
      | some s => by_cases hk : k' = k <;> simp [ih, hs, hk]

theorem allContribSales_spec (geoLk prodLk : Int → Option String)
    (rows : List FactRowM) :
    allContribSales geoLk prodLk rows =
      ((rows.filter (fun r => (resolvedKey geoLk prodLk r).isSome)).filterMap
        FactRowM.sales) := by
  induction rows with
  | nil => simp [allContribSales]
  | cons r rs ih =>
    simp only [allContribSales, mdaContrib_resolvedKey, List.filter_cons]
    cases hr : resolvedKey geoLk prodLk r with
    | none => cases hs : r.sales <;> simp [ih]
    | some k' => cases hs : r.sales <;> simp [ih, hs]

/-- Claim C2 (confirmed): aggregation-sum homomorphism for the
region × category analysis.  Each group's emitted `total_sales` equals the
sum of `gross_sales` over exactly the raw fact rows whose group key resolved
to that group, and the sum of `total_sales` over all emitted groups equals
the sum of `gross_sales` over all fact rows whose group keys resolved.
(C++ doubles are modelled as exact rationals, matching the spec's "exact, to
floating-point tolerance".) -/
theorem mda_sum_homomorphism (geoLk prodLk : Int → Option String)
    (rows : List FactRowM) :
    (∀ k : String × String,
        mdaGroupTotal geoLk prodLk rows k =
          ((rows.filter (fun r => decide (resolvedKey geoLk prodLk r = some k))).filterMap
            FactRowM.sales).sum) ∧
    sumOverGroups (mdaAggregate geoLk prodLk rows) =
      ((rows.filter (fun r => (resolvedKey geoLk prodLk r).isSome)).filterMap
        FactRowM.sales).sum := by
  constructor
  · intro k
    unfold mdaGroupTotal mdaAggregate
    rw [mda_fold_lookup, ← contribSales_spec]
    by_cases h : contribSales geoLk prodLk rows k = [] <;> simp [h, mapLookup]
  · unfold mdaAggregate
    rw [sumOverGroups_fold, ← allContribSales_spec]
    simp [sumOverGroups]

/-- A row the multidimensional loop excludes: a null foreign key, a null
measure value, or a foreign key with no matching dimension entry (the exact
complement of the loop's admission test). -/
def mdaExcluded (geoLk prodLk : Int → Option String) (r : FactRowM) : Bool :=
  match r.geo, r.prod, r.sales with
  | some g, some p, some _ => (geoLk g).isNone || (prodLk p).isNone
  | _, _, _ => true

/-- A row with an unresolved foreign key: the key scalar is present (valid)
but has no matching entry in the corresponding dimension lookup. -/
def mdaUnresolved (geoLk prodLk : Int → Option String) (r : FactRowM) : Bool :=
  (match r.geo with
   | some g => (geoLk g).isNone
   | none => false) ||
  (match r.prod with
   | some p => (prodLk p).isNone
   | none => false)

theorem mdaStep_skip (geoLk prodLk : Int → Option String)
    (m : List ((String × String) × List ℚ)) (r : FactRowM)
    (h : mdaContrib geoLk prodLk r = none) : mdaStep geoLk prodLk m r = m := by
  unfold mdaStep
  rw [h]

theorem mdaContrib_none_iff_excluded (geoLk prodLk : Int → Option String)
    (r : FactRowM) :
    mdaContrib geoLk prodLk r = none ↔ mdaExcluded geoLk prodLk r = true := by
  cases hg : r.geo <;> cases hp : r.prod <;> cases hs : r.sales <;>
    simp only [mdaContrib, mdaExcluded, hg, hp, hs] <;> try simp
  case some.some.some g p s =>
    cases hgl : geoLk g <;> cases hpl : prodLk p <;> simp

theorem mdaUnresolved_contrib_none (geoLk prodLk : Int → Option String)
    (r : FactRowM) (h : mdaUnresolved geoLk prodLk r = true) :
    mdaContrib geoLk prodLk r = none := by
  cases hg : r.geo <;> cases hp : r.prod <;> cases hs : r.sales <;>
    simp only [mdaUnresolved, mdaContrib, hg, hp, hs] at h ⊢ <;> try rfl
  case some.some.some g p s =>
    cases hgl : geoLk g <;> cases hpl : prodLk p <;> simp_all

theorem allContribSales_length_add_excluded (geoLk prodLk : Int → Option String)
    (rows : List FactRowM) :
    (allContribSales geoLk prodLk rows).length +
      (rows.filter (mdaExcluded geoLk prodLk)).length = rows.length := by
  induction rows with
  | nil => simp [allContribSales]
  | cons r rs ih =>
    simp only [List.filter_cons, List.length_cons]
    cases hc : mdaContrib geoLk prodLk r with
    | none =>
      have he : mdaExcluded geoLk prodLk r = true :=
        (mdaContrib_none_iff_excluded geoLk prodLk r).mp hc
      simp only [allContribSales, hc, he, if_true, List.length_cons]
      omega
    | some q =>
      obtain ⟨k, s⟩ := q
      have he : mdaExcluded geoLk prodLk r = false := by
        cases h2 : mdaExcluded geoLk prodLk r
        · rfl
        · rw [← mdaContrib_none_iff_excluded] at h2
          rw [hc] at h2
          cases h2
      simp only [allContribSales, hc, he, Bool.false_eq_true, if_false, List.length_cons]
      omega

/-- Concrete instance for the C1 counterexample: both dimension keys of the
single fact row resolve, but the row's `gross_sales` scalar is null. -/
def geoLkC1 : Int → Option String := buildLookup [⟨some 1, some "East"⟩]

/-- Product lookup of the C1 counterexample instance. -/
def prodLkC1 : Int → Option String := buildLookup [⟨some 1, some "Technology"⟩]

/-- Fact rows of the C1 counterexample instance. -/
def rowsC1 : List FactRowM := [⟨some 1, some 1, none⟩]

/-- Claim C1 counterexample: on a one-row fact table whose keys both resolve
but whose measure is null, the total row count folded into all groups is 0
while the input row count minus the number of unresolved-key rows is
1 - 0 = 1 — the claimed equality fails, because rows with null measures are
also excluded. -/
theorem mda_folded_count_gap_not_only_unresolved :
    countOverGroups (mdaAggregate geoLkC1 prodLkC1 rowsC1) = 0 ∧
      (rowsC1.filter (mdaUnresolved geoLkC1 prodLkC1)).length = 0 ∧
      rowsC1.length = 1 ∧
      countOverGroups (mdaAggregate geoLkC1 prodLkC1 rowsC1) ≠
        rowsC1.length - (rowsC1.filter (mdaUnresolved geoLkC1 prodLkC1)).length := by
  refine ⟨by decide, by decide, rfl, by decide⟩

/-- Claim C1 (amended): inner-join semantics of aggregation.  A fact row
whose foreign key has no matching dimension entry contributes to no group
and no measure — removing it from the fact table leaves the region × category
aggregation unchanged, and likewise for the customer-type aggregation — and
the total row count folded into all groups equals the input row count minus
the number of excluded rows, where a row is excluded iff it has a null
foreign key, a foreign key with no matching dimension entry, or a null
measure value. -/
theorem mda_inner_join_semantics (geoLk prodLk : Int → Option String) :
    (∀ (pre post : List FactRowM) (r : FactRowM),
        mdaUnresolved geoLk prodLk r = true →
        mdaAggregate geoLk prodLk (pre ++ r :: post) =
          mdaAggregate geoLk prodLk (pre ++ post)) ∧
    (∀ (lk : Int → Option String) (pre post : List FactRowC) (r : FactRowC) (c : Int),
        r.cust = some c → lk c = none →
        custSegAggregate lk (pre ++ r :: post) = custSegAggregate lk (pre ++ post)) ∧
    (∀ rows : List FactRowM,
        countOverGroups (mdaAggregate geoLk prodLk rows) =
          rows.length - (rows.filter (mdaExcluded geoLk prodLk)).length) := by
  refine ⟨?_, ?_, ?_⟩
  · intro pre post r h
    unfold mdaAggregate
    rw [List.foldl_append, List.foldl_append, List.foldl_cons]
    congr 1
    exact mdaStep_skip geoLk prodLk _ r (mdaUnresolved_contrib_none geoLk prodLk r h)
  · intro lk pre post r c hc hl
    unfold custSegAggregate
    rw [List.foldl_append, List.foldl_append, List.foldl_cons]
    congr 1
    apply custStep_skip
    cases hs : r.sales <;> cases hp : r.profit <;> simp [custContrib, hc, hl, hs, hp]
  · intro rows
    unfold mdaAggregate
    rw [countOverGroups_fold]
    have h1 := allContribSales_length_add_excluded geoLk prodLk rows
    rw [show countOverGroups ([] : List ((String × String) × List ℚ)) = 0 from rfl]
    omega

/-- Witness for the amended C1 theorem at a concrete input: dropping a row
whose geography key has no dimension entry leaves the aggregation unchanged. -/
theorem mda_inner_join_semantics_witness :
    mdaAggregate geoLkC1 prodLkC1
        ([⟨some 1, some 1, some 5⟩] ++ (⟨some 2, some 1, some 7⟩ : FactRowM) :: []) =
      mdaAggregate geoLkC1 prodLkC1 ([⟨some 1, some 1, some 5⟩] ++ []) :=
  (mda_inner_join_semantics geoLkC1 prodLkC1).1 [⟨some 1, some 1, some 5⟩] []
    ⟨some 2, some 1, some 7⟩ (by decide)

/-! ### Column access and the join helper

Embedding of `ArrowOLAPAnalyzer::GetColumnAsArray` (arrow_analyzer.cpp:53-65)
and `ArrowOLAPAnalyzer::JoinTables` (arrow_analyzer.cpp:82-107).  An Arrow
table is an ordered list of named chunked columns; a scalar is a typed value
or null. -/

/-- An Arrow scalar: a 64/32-bit integer, a UTF-8 string, a double (exact
rational here), a boolean, or a null of any type. -/
inductive SVal
  | intS (n : Int)
  | strS (s : String)
  | dblS (q : ℚ)
  | boolS (b : Bool)
  | nullS
deriving DecidableEq, Repr

/-- A named chunked column of a table. -/
structure ChunkedColumn where
  name : String
  chunks : List (List SVal)
deriving DecidableEq, Repr

/-- `table->GetColumnByName(name)`: the first column carrying the name, if
any. -/
def getColumnByName (t : List ChunkedColumn) (nm : String) : Option ChunkedColumn :=
  t.find? (fun c => c.name == nm)

/-- A single ASCII apostrophe, as used by the C++ error message. -/
def squote : String := String.singleton (Char.ofNat 39)

/-- The error message `"Column '" + column_name + "' not found"` of
arrow_analyzer.cpp:59. -/
def columnNotFoundMsg (nm : String) : String :=
  "Column " ++ squote ++ nm ++ squote ++ " not found"

/-- `GetColumnAsArray`: look the column up by name; fail with
`Status::Invalid` when absent, otherwise concatenate its chunks into one
array. -/
def getColumnAsArray (t : List ChunkedColumn) (nm : String) :
    Except String (List SVal) :=
  match getColumnByName t nm with
  | none => Except.error (columnNotFoundMsg nm)
  | some c => Except.ok c.chunks.flatten

/-- The call as the caller sees it: the table is taken by (shared) value and
never written, so the caller's table after the call is the table before it. -/
def getColumnAsArrayCall (t : List ChunkedColumn) (nm : String) :
    List ChunkedColumn × Except String (List SVal) :=
  (t, getColumnAsArray t nm)

/-- Claim C8 (confirmed): requesting a column absent from the table's schema
fails with an `Invalid` error value naming the missing column — it does not
panic, and the table is left unchanged. -/
theorem getColumnAsArray_missing_column (t : List ChunkedColumn) (nm : String)
    (h : ∀ c ∈ t, ¬ c.name = nm) :
    getColumnAsArray t nm = Except.error (columnNotFoundMsg nm) ∧
      (getColumnAsArrayCall t nm).1 = t := by
  refine ⟨?_, rfl⟩
  have hf : getColumnByName t nm = none := by
    unfold getColumnByName
    rw [List.find?_eq_none]
    intro c hc
    simpa using h c hc
  unfold getColumnAsArray
  rw [hf]

/-- Witness for the C8 theorem at a concrete input. -/
theorem getColumnAsArray_missing_column_witness :
    (∀ c ∈ [ChunkedColumn.mk "gross_sales" [[SVal.dblS 1]]], ¬ c.name = "region") ∧
      getColumnAsArray [ChunkedColumn.mk "gross_sales" [[SVal.dblS 1]]] "region" =
        Except.error (columnNotFoundMsg "region") ∧
      (getColumnAsArrayCall [ChunkedColumn.mk "gross_sales" [[SVal.dblS 1]]] "region").1 =
        [ChunkedColumn.mk "gross_sales" [[SVal.dblS 1]]] :=
  ⟨by decide,
    getColumnAsArray_missing_column [ChunkedColumn.mk "gross_sales" [[SVal.dblS 1]]]
      "region" (by decide)⟩

/-- The `ScalarToString` helper (arrow_analyzer.cpp:68-73): `"NULL"` for an
invalid scalar, otherwise the scalar's textual rendering (its exact format
is irrelevant to every property proved here). -/
def scalarToString : SVal → String
  | SVal.intS n => toString n
  | SVal.strS s => s
  | SVal.dblS q => toString q
  | SVal.boolS b => toString b
  | SVal.nullS => "NULL"

/-- The right-table hash of `JoinTables` (arrow_analyzer.cpp:96-103): buckets
of row indices keyed by the stringified key scalar. -/
def buildRightHash (arr : List SVal) : List (String × List Nat) :=
  arr.enum.foldl
    (fun m e =>
      mapUpdate (scalarToString e.2) (fun l =>
        match l with
        | none => [e.1]
        | some l => l ++ [e.1]) m)
    []

/-- `JoinTables`: fetch both key columns (propagating their errors), build
the hash table over the right key column, then return the left table. -/
def joinTables (left right : List ChunkedColumn) (leftKey rightKey : String) :
    Except String (List ChunkedColumn) :=
  match getColumnAsArray left leftKey with
  | Except.error e => Except.error e
  | Except.ok _ =>
    match getColumnAsArray right rightKey with
    | Except.error e => Except.error e
    | Except.ok rightArr =>
      let _hash := buildRightHash rightArr
      Except.ok left

/-- Claim C9 (confirmed): for every pair of tables and key column names,
`JoinTables` either fails (a key column is absent) or returns exactly the
left table — the hash table built over the right table's key column is
discarded, and no column or row content derived from the right table ever
appears in the result. -/
theorem joinTables_returns_left (left right : List ChunkedColumn)
    (leftKey rightKey : String) :
    joinTables left right leftKey rightKey = Except.ok left ∨
      ∃ e, joinTables left right leftKey rightKey = Except.error e := by
  unfold joinTables
  cases getColumnAsArray left leftKey with
  | error e => exact Or.inr ⟨e, rfl⟩
  | ok a =>
    cases getColumnAsArray right rightKey with
    | error e => exact Or.inr ⟨e, rfl⟩
    | ok b => exact Or.inl rfl

/-! ### Orchestrators

Embeddings of the two `RunAllAnalyses` drivers over the abstract outcomes of
their configured analyses. -/

/-- `ArrowOLAPAnalyzer::RunAllAnalyses` (arrow_analyzer.cpp:591-616): each
analysis is wrapped in `ARROW_RETURN_NOT_OK`, so the run executes the
analyses in order and returns at the first non-OK status.  The value is the
number of analyses executed paired with the run's final status. -/
def arrowRunAnalyses : List (Except String Unit) → Nat × Except String Unit
  | [] => (0, Except.ok ())
  | Except.error e :: _ => (1, Except.error e)
  | Except.ok () :: rest =>
    let r := arrowRunAnalyses rest
    (r.1 + 1, r.2)

/-- `DuckDBOLAPAnalyzer::RunAllAnalyses` (duckdb_analyzer.cpp:366-401): when
registration fails, nothing runs and the run reports `false`; otherwise every
configured analysis is invoked unconditionally, each boolean result is
discarded, and the run reports `true`.  The value is the number of analyses
executed paired with the reported overall result. -/
def duckdbRunAnalyses (registered : Bool) (outcomes : List Bool) : Nat × Bool :=
  if registered then (outcomes.length, true) else (0, false)

/-- Claim C5 counterexample: with the five configured Arrow analyses and the
first one failing, the Arrow orchestrator executes only 1 of the 5 — it does
NOT continue with the next configured analysis — and the DuckDB orchestrator,
with a failing analysis among its six, still reports overall success — the
failure is not reported to the caller at all. -/
theorem orchestrator_aborts_run_or_swallows_failures :
    arrowRunAnalyses [Except.error "Time analysis failed", Except.ok (),
        Except.ok (), Except.ok (), Except.ok ()] =
      (1, Except.error "Time analysis failed") ∧
    (duckdbRunAnalyses true [false, true, true, true, true, true]).2 = true := by
  exact ⟨rfl, rfl⟩

/-- Claim C5 (amended): the Arrow orchestrator aborts the entire run at the
first failing analysis — it returns that analysis's error and executes none
of the later configured analyses — while the DuckDB orchestrator executes
every configured analysis regardless of failures but discards their results
and reports success; neither backend accumulates failures for the caller. -/
theorem orchestrator_first_failure_aborts_run :
    (∀ (pre : List (Except String Unit)) (e : String)
        (rest : List (Except String Unit)),
        (∀ x ∈ pre, x = Except.ok ()) →
        arrowRunAnalyses (pre ++ Except.error e :: rest) =
          (pre.length + 1, Except.error e)) ∧
    (∀ outcomes : List Bool,
        duckdbRunAnalyses true outcomes = (outcomes.length, true)) := by
  constructor
  · intro pre e rest
    induction pre with
    | nil => intro _; rfl
    | cons x xs ih =>
      intro hpre
      have hx : x = Except.ok () := hpre x (List.mem_cons_self x xs)
      subst hx
      simp only [List.cons_append, arrowRunAnalyses, List.append_eq]
      rw [ih (fun y hy => hpre y (List.mem_cons_of_mem _ hy))]
      simp [List.length_cons]
  · intro outcomes
    rfl

/-- Witness for the amended C5 theorem at a concrete input. -/
theorem orchestrator_first_failure_aborts_run_witness :
    (∀ x ∈ [Except.ok ()], x = (Except.ok () : Except String Unit)) ∧
      arrowRunAnalyses
          ([Except.ok ()] ++ Except.error "Customer analysis failed" :: [Except.ok ()]) =
        (2, Except.error "Customer analysis failed") :=
  ⟨fun x hx => by rwa [List.mem_singleton] at hx,
    orchestrator_first_failure_aborts_run.1 [Except.ok ()] "Customer analysis failed"
      [Except.ok ()] (fun x hx => by rwa [List.mem_singleton] at hx)⟩

/-! ### Backend output schemas for the customer-segment analysis

Embedding of the output stage of `ArrowOLAPAnalyzer::AnalyzeCustomerSegments`
(arrow_analyzer.cpp:428-452) and of the SQL query of
`DuckDBOLAPAnalyzer::AnalyzeCustomerSegments` (duckdb_analyzer.cpp:256-271)
under standard SQL semantics (inner join on key equality, `GROUP BY`
customer_type, aggregates skipping NULLs, `ORDER BY SUM(gross_sales) DESC`). -/

/-- Lexicographic comparison of character lists, the order by which
`std::map<std::string, ...>` keys are arranged (`std::string::operator<`). -/
def charsLt : List Char → List Char → Bool
  | [], [] => false
  | [], _ :: _ => true
  | _ :: _, [] => false
  | c :: cs, d :: ds =>
    if c.toNat < d.toNat then true
    else if d.toNat < c.toNat then false
    else charsLt cs ds

/-- `std::string` strict order. -/
def stringLt (a b : String) : Bool := charsLt a.data b.data

/-- The corresponding reflexive order. -/
def stringLe (a b : String) : Bool := !(stringLt b a)

theorem charsLt_asymm (a b : List Char) (h : charsLt a b = true) :
    charsLt b a = false := by
  induction a generalizing b with
  | nil =>
    cases b with
    | nil => simp [charsLt] at h
    | cons d ds => rfl
  | cons c cs ih =>
    cases b with
    | nil => simp [charsLt] at h
    | cons d ds =>
      simp only [charsLt] at h ⊢
      by_cases h1 : c.toNat < d.toNat
      · rw [if_neg (by omega), if_pos h1]
      · rw [if_neg h1] at h
        by_cases h2 : d.toNat < c.toNat
        · rw [if_pos h2] at h
          cases h
        · rw [if_neg h2] at h
          rw [if_neg h2, if_neg h1]
          exact ih ds h

theorem stringLt_le (a b : String) (h : stringLt a b = true) :
    stringLe a b = true := by
  unfold stringLt at h
  unfold stringLe stringLt
  rw [charsLt_asymm _ _ h]
  rfl

theorem stringLe_of_not_lt (a b : String) (h : stringLt a b = false) :
    stringLe b a = true := by
  unfold stringLe
  rw [h]
  rfl

/-- Ordered insertion into a key-ascending list: the arrangement
`std::map<std::string, ...>` maintains and that its range-for iteration
reproduces. -/
def insertAsc (p : String × GroupAcc) :
    List (String × GroupAcc) → List (String × GroupAcc)
  | [] => [p]
  | q :: qs => if stringLt p.1 q.1 then p :: q :: qs else q :: insertAsc p qs

/-- The entries of the aggregation map in ascending key order (the iteration
order of the `std::map` over customer types). -/
def sortAsc (l : List (String × GroupAcc)) : List (String × GroupAcc) :=
  l.foldr insertAsc []

theorem chain_insertAsc (p : String × GroupAcc) (l : List (String × GroupAcc))
    (h : List.Chain' (fun a b => stringLe a.1 b.1 = true) l) :
    List.Chain' (fun a b => stringLe a.1 b.1 = true) (insertAsc p l) := by
  induction l with
  | nil => simp [insertAsc]
  | cons q qs ih =>
    simp only [insertAsc]
    cases hlt : stringLt p.1 q.1 with
    | true =>
      rw [if_pos rfl]
      exact List.Chain'.cons (stringLt_le _ _ hlt) h
    | false =>
      rw [if_neg (by simp)]
      have htail : List.Chain' (fun a b => stringLe a.1 b.1 = true) qs :=
        List.Chain'.tail h
      have hins := ih htail
      cases qs with
      | nil =>
        simp only [insertAsc]
        exact List.Chain'.cons (stringLe_of_not_lt _ _ hlt) (List.chain'_singleton p)
      | cons q' qs' =>
        simp only [insertAsc]
        cases hlt' : stringLt p.1 q'.1 with
        | true =>
          rw [if_pos rfl]
          refine List.Chain'.cons (stringLe_of_not_lt _ _ hlt) ?_
          rw [insertAsc, if_pos hlt'] at hins
          exact hins
        | false =>
          rw [if_neg (by simp)]
          have hqq' : stringLe q.1 q'.1 = true := (List.chain'_cons.mp h).1
          refine List.Chain'.cons hqq' ?_
          rw [insertAsc, if_neg (by simp [hlt'])] at hins
          exact hins

theorem chain_sortAsc (l : List (String × GroupAcc)) :
    List.Chain' (fun a b => stringLe a.1 b.1 = true) (sortAsc l) := by
  induction l with
  | nil => simp [sortAsc]
  | cons p ps ih => exact chain_insertAsc p _ ih

/-- One printed row of the Arrow customer-segment output
(arrow_analyzer.cpp:439-452). -/
structure SegRow where
  customerType : String
  totalSales : ℚ
  avgSales : Option ℚ
  totalProfit : ℚ
  avgProfit : Option ℚ
  uniqueCustomers : Nat
deriving DecidableEq, Repr

/-- The Arrow backend's customer-segment result rows, in output order: the
range-for over the `std::map` visits customer types in ascending order;
per type the totals are accumulated sums, the averages divide by the order
count, and the unique-customer count is the set's cardinality. -/
def arrowCustSegRows (custRows : List DimRow) (facts : List FactRowC) :
    List SegRow :=
  (sortAsc (custSegAggregate (buildLookup custRows) facts)).map (fun e =>
    { customerType := e.1
      totalSales := e.2.salesVals.sum
      avgSales := ddiv e.2.salesVals.sum e.2.orders
      totalProfit := e.2.profitVals.sum
      avgProfit := ddiv e.2.profitVals.sum e.2.orders
      uniqueCustomers := e.2.uniqueCusts.length })

/-- Output column names printed by the Arrow backend
(arrow_analyzer.cpp:431-436). -/
def arrowCustSegColumns : List String :=
  ["customer_type", "total_sales", "avg_sales_per_order", "total_profit",
   "avg_profit_per_order", "unique_customers"]

/-- Output column aliases of the DuckDB backend's customer-segment query
(duckdb_analyzer.cpp:258-264). -/
def duckdbCustSegColumns : List String :=
  ["customer_type", "total_sales", "avg_sales_per_order", "total_profit",
   "avg_profit_per_order", "unique_customers"]

/-- The rows of `fact_sales s JOIN dim_customer c ON s.customer_key =
c.customer_key`, each labelled with the joined row's `customer_type` (SQL
inner join: a NULL key matches nothing; every matching dimension row joins). -/
def duckdbJoinedRows (custRows : List DimRow) (facts : List FactRowC) :
    List (Option String × FactRowC) :=
  facts.flatMap (fun f =>
    match f.cust with
    | none => []
    | some c => (custRows.filter (fun d => d.key == some c)).map (fun d => (d.attr, f)))

/-- The distinct `GROUP BY` keys, in first-occurrence order. -/
def dedupKeys (l : List (Option String)) : List (Option String) :=
  l.foldl (fun acc t => if t ∈ acc then acc else acc ++ [t]) []

/-- `SUM(s.gross_sales)` for one group (SQL `SUM` skips NULLs). -/
def duckdbGroupSales (custRows : List DimRow) (facts : List FactRowC)
    (t : Option String) : ℚ :=
  (((duckdbJoinedRows custRows facts).filter (fun e => e.1 == t)).filterMap
    (fun e => e.2.sales)).sum

/-- Descending insertion by the group's sales total, realising
`ORDER BY SUM(s.gross_sales) DESC` (ties keep their relative order; SQL
leaves tie order unspecified). -/
def insertDescBySales (x : Option String × ℚ) :
    List (Option String × ℚ) → List (Option String × ℚ)
  | [] => [x]
  | y :: ys => if y.2 < x.2 then x :: y :: ys else y :: insertDescBySales x ys

/-- The sequence of `customer_type` values of the DuckDB backend's result,
in output order. -/
def duckdbCustSegTypeOrder (custRows : List DimRow) (facts : List FactRowC) :
    List (Option String) :=
  (((dedupKeys ((duckdbJoinedRows custRows facts).map (fun e => e.1))).map
    (fun t => (t, duckdbGroupSales custRows facts t))).foldr insertDescBySales []).map
    (fun e => e.1)

/-- Customer dimension of the C7 counterexample instance. -/
def custsC7 : List DimRow := [⟨some 1, some "Consumer"⟩, ⟨some 2, some "Corporate"⟩]

/-- Fact rows of the C7 counterexample instance. -/
def factsC7 : List FactRowC := [⟨some 1, some 10, some 1⟩, ⟨some 2, some 20, some 2⟩]

/-- Claim C7 counterexample: on a two-type instance where the
lexicographically smaller type has the smaller sales total, the Arrow
backend emits the types ascending ("Consumer" then "Corporate") while the
DuckDB query emits them by descending sales total ("Corporate" then
"Consumer") — the two backends do not produce the same row ordering. -/
theorem custSeg_backend_row_order_differs :
    (arrowCustSegRows custsC7 factsC7).map (fun r => some r.customerType) =
        [some "Consumer", some "Corporate"] ∧
      duckdbCustSegTypeOrder custsC7 factsC7 = [some "Corporate", some "Consumer"] ∧
      (arrowCustSegRows custsC7 factsC7).map (fun r => some r.customerType) ≠
        duckdbCustSegTypeOrder custsC7 factsC7 := by
  have h1 : (arrowCustSegRows custsC7 factsC7).map (fun r => some r.customerType) =
      [some "Consumer", some "Corporate"] := by decide
  have h2 : duckdbCustSegTypeOrder custsC7 factsC7 = [some "Corporate", some "Consumer"] := by
    norm_num +decide [duckdbCustSegTypeOrder, duckdbJoinedRows, dedupKeys, duckdbGroupSales,
      insertDescBySales, custsC7, factsC7, List.filterMap_cons, List.sum_cons]
  refine ⟨h1, h2, ?_⟩
  rw [h1, h2]
  decide

/-- Claim C7 (amended): the two backends produce the same output column
names for the customer-segment analysis, but not the same row ordering — the
hand-rolled backend emits rows in ascending `customer_type` order (the
`std::map` iteration order, proved here), while the SQL backend orders by
descending total sales. -/
theorem custSeg_backend_schemas_match :
    arrowCustSegColumns = duckdbCustSegColumns ∧
    ∀ (custRows : List DimRow) (facts : List FactRowC),
      List.Chain' (fun a b => stringLe a.customerType b.customerType = true)
        (arrowCustSegRows custRows facts) := by
  refine ⟨rfl, ?_⟩
  intro custRows facts
  unfold arrowCustSegRows
  have h := chain_sortAsc (custSegAggregate (buildLookup custRows) facts)
  rw [List.chain'_map]
  exact h

end TryParquet
